import Mathlib

/-!
Verification development for the NoSqlSim cluster-orchestration frontend.

The definitions below are shallow embeddings of the TypeScript sources:
the wire types mirrored from the backend (`types/cluster.ts`, `types/failure.ts`),
the partition selection logic of `ControlPanel.tsx`, the canvas topology
renderer (`utils/canvas.ts`), the replication-flow generator of
`ClusterTopology.tsx`, and the WebSocket hook (`hooks/useWebSocket.ts`).
Backend services (`cluster_manager.py`, `failure_simulator.py`) are not part
of the source tree; where a property concerns them, a definition explicitly
modelled from the specification text is used instead and marked as such.
-/

namespace NoSqlSim

/-! ## Wire types (from `frontend/src/types/cluster.ts`) -/

/-- `MemberStatus` from `types/cluster.ts`: live observed state of one member. -/
structure MemberStatus where
  node_id : String
  name : String
  state : String
  state_str : String
  health : Nat
  uptime : Nat
  optime : Option String := none
  last_heartbeat : Option String := none
  ping_ms : Option Nat := none
deriving DecidableEq, Repr

/-- `ReplicaSetStatus` from `types/cluster.ts`: aggregate status of one named
replica set; `primary` is a single node id or null (`Option String`). -/
structure ReplicaSetStatus where
  set_name : String
  primary : Option String
  members : List MemberStatus
  health : String
  term : Option Nat := none
deriving DecidableEq, Repr

/-- `PartitionInfo` from `types/cluster.ts`. -/
structure PartitionInfo where
  failure_id : String
  group_a : List String
  group_b : List String
  description : Option String := none
deriving DecidableEq, Repr

/-- `ClusterState` from `types/cluster.ts` (the untyped `sharded_clusters: any[]`
field is omitted; no claim concerns it). `replica_sets` is the
`Record<string, ReplicaSetStatus>` as an association list. -/
structure ClusterState where
  timestamp : String
  replica_sets : List (String × ReplicaSetStatus)
  active_failures : List String
  active_partitions : List PartitionInfo
deriving DecidableEq, Repr

/-- The two partition sides `'A' | 'B'` used by the UI. -/
inductive PGroup where
  | A
  | B
deriving DecidableEq, Repr

/-- JS `Map.set` on an association list: overwrite the value at an existing
key in place, otherwise append the new entry (insertion order preserved). -/
def mapSet {α : Type} (m : List (String × α)) (k : String) (v : α) :
    List (String × α) :=
  match m with
  | [] => [(k, v)]
  | (k0, v0) :: rest =>
    if k0 == k then (k0, v) :: rest else (k0, v0) :: mapSet rest k v

/-- The `nodePartitions` map built by `ClusterTopology.tsx` (and identically
inside `generateReplicationFlows`): only `partitions[0]` is consulted;
`group_a` entries are set to `'A'`, then `group_b` entries to `'B'`. -/
def buildNodePartitions (partitions : List PartitionInfo) :
    List (String × PGroup) :=
  match partitions with
  | [] => []
  | p :: _ =>
    let m := p.group_a.foldl (fun m id => mapSet m id PGroup.A) []
    p.group_b.foldl (fun m id => mapSet m id PGroup.B) m

/-! ## ControlPanel partition selection (from `ControlPanel.tsx`) -/

/-- The `partitionGroupA` / `partitionGroupB` React state of `ControlPanel.tsx`
(both initialised to `[]`). -/
structure PartitionSel where
  groupA : List String
  groupB : List String
deriving DecidableEq, Repr

/-- `toggleNodeInPartition` from `ControlPanel.tsx` (lines 180-198): toggling a
node into one group removes it from the group's list if present, otherwise
appends it there and filters it out of the other group's list. -/
def toggleNodeInPartition (s : PartitionSel) (nodeId : String)
    (side : PGroup) : PartitionSel :=
  match side with
  | PGroup.A =>
    if s.groupA.contains nodeId then
      { s with groupA := s.groupA.filter (fun id => id != nodeId) }
    else
      { groupA := s.groupA ++ [nodeId],
        groupB := s.groupB.filter (fun id => id != nodeId) }
  | PGroup.B =>
    if s.groupB.contains nodeId then
      { s with groupB := s.groupB.filter (fun id => id != nodeId) }
    else
      { groupB := s.groupB ++ [nodeId],
        groupA := s.groupA.filter (fun id => id != nodeId) }

/-- `canCreatePartition` from `ControlPanel.tsx` (line 200). -/
def canCreatePartition (s : PartitionSel) : Bool :=
  s.groupA.length > 0 && s.groupB.length > 0

/-- The empty initial selection state. -/
def emptySel : PartitionSel := { groupA := [], groupB := [] }

/-- Apply a sequence of toggle operations starting from a given state. -/
def applyToggles (s : PartitionSel) : List (String × PGroup) → PartitionSel
  | [] => s
  | (n, g) :: rest => applyToggles (toggleNodeInPartition s n g) rest

/-- Disjointness of the two selected groups. -/
def selDisjoint (s : PartitionSel) : Prop :=
  ∀ x, x ∈ s.groupA → x ∉ s.groupB

/-! ## Canvas topology renderer (from `utils/canvas.ts`, partition-aware copy)

The renderer is embedded as a function producing the list of logical draw
commands, in source order; geometry, colors and the animation overlay
(replication particles, election indicator, vote badges, timestamp) carry no
claim-relevant state and are not modelled. -/

/-- Logical draw commands emitted by `drawClusterTopology`. -/
inductive RenderOp where
  | emptyState
  | connection (id1 id2 : String) (isActive isBlocked : Bool)
  | partitionBoundary (label : String) (groupSize : Nat) (hasMajority : Bool)
      (labelText : String)
  | wipWarning
  | nodeGlyph (id : String) (partitionGroup : Option PGroup)
deriving DecidableEq, Repr

/-- The `inDifferentPartitions` expression of `drawClusterTopology`
(line 572): `node1Partition && node2Partition && node1Partition !== node2Partition`,
truthy exactly when both nodes have an assignment and the assignments differ. -/
def inDifferentPartitions (np : List (String × PGroup)) (id1 id2 : String) :
    Bool :=
  match np.lookup id1, np.lookup id2 with
  | some g1, some g2 => g1 != g2
  | _, _ => false

/-- The full-mesh pair loop `for i; for j in i+1..` over node positions. -/
def meshPairs : List MemberStatus → List (MemberStatus × MemberStatus)
  | [] => []
  | n :: rest => rest.map (fun m => (n, m)) ++ meshPairs rest

/-- The connection-drawing loop of `drawClusterTopology` (lines 567-586):
each pair is drawn with `isActive = bothHealthy && !inDifferentPartitions`
and `isBlocked = inDifferentPartitions`; `drawConnection` renders the dashed
blocked style exactly when `isBlocked` is truthy. -/
def connectionOps (nodes : List MemberStatus) (np : List (String × PGroup)) :
    List RenderOp :=
  (meshPairs nodes).map (fun ab =>
    let blocked := inDifferentPartitions np ab.1.node_id ab.2.node_id
    let bothHealthy := ab.1.health == 1 && ab.2.health == 1
    RenderOp.connection ab.1.node_id ab.2.node_id (bothHealthy && !blocked)
      blocked)

/-- The JS comparison `count > total / 2` (IEEE division; exact over ℚ for the
magnitudes involved). -/
def jsGtHalf (count total : Nat) : Bool :=
  decide ((total : ℚ) / 2 < (count : ℚ))

/-- The `labelText` of `drawPartitionBoundary` (line 723). -/
def partitionLabelText (label : String) (hasMajority : Bool) : String :=
  if hasMajority then label ++ " (MAJORITY - Can Write)"
  else label ++ " (Minority - Read Only)"

/-- The partition-boundary block of `drawClusterTopology` (lines 626-657):
executed when the partition map is non-empty; splits the positioned nodes by
their assignment, computes `groupXHasMajority = groupX.length > totalNodes / 2`,
draws a boundary per non-empty group, then the WIP warning text
`"[WIP] Partition visualization has known issues"`. -/
def partitionOps (nodes : List MemberStatus) (np : List (String × PGroup)) :
    List RenderOp :=
  if np.length > 0 then
    let groupA := nodes.filter (fun n => np.lookup n.node_id == some PGroup.A)
    let groupB := nodes.filter (fun n => np.lookup n.node_id == some PGroup.B)
    let totalNodes := nodes.length
    let aMaj := jsGtHalf groupA.length totalNodes
    let bMaj := jsGtHalf groupB.length totalNodes
    (if groupA.length > 0 then
      [RenderOp.partitionBoundary "Group A" groupA.length aMaj
        (partitionLabelText "Group A" aMaj)]
     else []) ++
    (if groupB.length > 0 then
      [RenderOp.partitionBoundary "Group B" groupB.length bMaj
        (partitionLabelText "Group B" bMaj)]
     else []) ++
    [RenderOp.wipWarning]
  else []

/-- `drawClusterTopology` from `utils/canvas.ts` (lines 542-680), reduced to
its logical draw commands: empty-state text when there are no nodes, else the
full-mesh connections, the partition block, and one glyph per node carrying
its partition badge. -/
def drawClusterTopology (nodes : List MemberStatus) (np : List (String × PGroup)) :
    List RenderOp :=
  if nodes.length == 0 then [RenderOp.emptyState]
  else
    connectionOps nodes np ++ partitionOps nodes np ++
      nodes.map (fun n => RenderOp.nodeGlyph n.node_id (np.lookup n.node_id))

/-! ## Replication flows (from `ClusterTopology.tsx`) -/

/-- `ReplicationFlow` from `utils/canvas.ts`; the `progress` field (a fresh
`Math.random()` sample per flow, then animated) is nondeterministic I/O and is
not modelled — no claim concerns it. -/
structure ReplicationFlow where
  fromNode : String
  toNode : String
  color : String
deriving DecidableEq, Repr

/-- `generateReplicationFlows` from `ClusterTopology.tsx` (lines 70-109):
empty when `primary` is null, unresolvable among the members, or unhealthy;
otherwise one flow per member passing
`!isPrimary && isHealthy && !isArbiter && isSecondary && !inDifferentPartitions`. -/
def generateReplicationFlows (members : List MemberStatus)
    (primary : Option String) (partitions : List PartitionInfo) :
    List ReplicationFlow :=
  match primary with
  | none => []
  | some p =>
    match members.find? (fun m => m.node_id == p || m.name == p) with
    | none => []
    | some primaryNode =>
      if primaryNode.health != 1 then []
      else
        let np := buildNodePartitions partitions
        members.filterMap (fun member =>
          let isPrimary := member.node_id == p || member.name == p
          let isArbiter := member.state_str.toUpper == "ARBITER"
          let isHealthy := member.health == 1
          let isSecondary := member.state_str.toUpper == "SECONDARY"
          let inDiff := inDifferentPartitions np primaryNode.node_id
            member.node_id
          if !isPrimary && isHealthy && !isArbiter && isSecondary && !inDiff then
            some { fromNode := primaryNode.node_id, toNode := member.node_id,
                   color := "#10b981" }
          else none)

/-! ## WebSocket message dispatch (from `hooks/useWebSocket.ts`) -/

/-- Incoming WebSocket messages, after the `type` dispatch of `ws.onmessage`
(lines 77-103): `cluster_state` messages carry a snapshot payload, `node_logs`
messages carry a node id and tailed log text. -/
inductive WsMessage where
  | clusterStateMsg (payload : ClusterState)
  | nodeLogsMsg (node_id : String) (logs : String)
  | otherMsg (msgType : String)
deriving DecidableEq

/-- `subscribeToNodeLogs` (lines 162-175) stores the callback in
`logCallbacksRef` keyed by node id; callbacks are modelled by opaque handles
(`Nat`). -/
def subscribeToNodeLogs (logCallbacks : List (String × Nat)) (nodeId : String)
    (callback : Nat) : List (String × Nat) :=
  mapSet logCallbacks nodeId callback

/-- The `ws.onmessage` handler body: a `cluster_state` message replaces the
snapshot feed value, a `node_logs` message is looked up in `logCallbacksRef`
and, when a handler is registered for that node id, delivered to it (the
delivery is returned as `some (handler, logs)`); the snapshot state is
untouched by `node_logs`. -/
def handleMessage (logCallbacks : List (String × Nat))
    (clusterState : Option ClusterState) (msg : WsMessage) :
    Option ClusterState × Option (Nat × String) :=
  match msg with
  | WsMessage.clusterStateMsg payload => (some payload, none)
  | WsMessage.nodeLogsMsg nid logs =>
    (clusterState,
     match logCallbacks.lookup nid with
     | some cb => some (cb, logs)
     | none => none)
  | WsMessage.otherMsg _ => (clusterState, none)

/-! ## WebSocket reconnect logic (from `hooks/useWebSocket.ts`) -/

/-- `RECONNECT_DELAY` (line 24). -/
def RECONNECT_DELAY : Nat := 1000

/-- `MAX_RECONNECT_ATTEMPTS` (line 25). -/
def MAX_RECONNECT_ATTEMPTS : Nat := 15

/-- The hook's reconnect-relevant refs: `reconnectAttemptsRef`,
`shouldReconnectRef`, and whether `reconnectTimeoutRef` holds a pending timer. -/
structure WsRetryState where
  reconnectAttempts : Nat
  shouldReconnect : Bool
  pendingTimer : Bool
deriving DecidableEq, Repr

/-- Events acting on the reconnect state: `ws.onopen`, `ws.onclose`, the
scheduled timeout firing, and the effect cleanup on unmount. -/
inductive WsEvent where
  | onOpen
  | onClose
  | timerFire
  | cleanup
deriving DecidableEq, Repr

/-- Observable actions: scheduling a reconnect timer (with its delay in ms)
and an actual `connect()` attempt fired by the timer. -/
inductive WsAction where
  | scheduleReconnect (delayMs : Nat)
  | connectAttempt
deriving DecidableEq, Repr

/-- One step of the hook's reconnect logic:
`onopen` resets the attempt counter (line 74); `onclose` schedules exactly one
timeout of `RECONNECT_DELAY` ms and increments the counter when
`shouldReconnect` holds and fewer than `MAX_RECONNECT_ATTEMPTS` attempts have
been made (lines 117-128), else does nothing; the timer firing performs the
`connect()` call (line 123-125); cleanup clears `shouldReconnect` and cancels
any pending timer (lines 208-214). -/
def wsStep (s : WsRetryState) : WsEvent → WsRetryState × List WsAction
  | WsEvent.onOpen => ({ s with reconnectAttempts := 0 }, [])
  | WsEvent.onClose =>
    if s.shouldReconnect ∧ s.reconnectAttempts < MAX_RECONNECT_ATTEMPTS then
      ({ s with reconnectAttempts := s.reconnectAttempts + 1,
                pendingTimer := true },
       [WsAction.scheduleReconnect RECONNECT_DELAY])
    else (s, [])
  | WsEvent.timerFire =>
    if s.pendingTimer then
      ({ s with pendingTimer := false }, [WsAction.connectAttempt])
    else (s, [])
  | WsEvent.cleanup =>
    ({ s with shouldReconnect := false, pendingTimer := false }, [])

/-- Run a sequence of events, accumulating the emitted actions. -/
def wsRun (s : WsRetryState) : List WsEvent → WsRetryState × List WsAction
  | [] => (s, [])
  | e :: rest =>
    let step := wsStep s e
    let next := wsRun step.1 rest
    (next.1, step.2 ++ next.2)

/-- Number of reconnects scheduled among a list of actions. -/
def countSchedules (actions : List WsAction) : Nat :=
  actions.countP (fun a =>
    match a with
    | WsAction.scheduleReconnect _ => true
    | _ => false)

/-! ## Partition-create request payload (C10):
the object literal built by `createPartitionMutation` in `ControlPanel.tsx`
versus the `CreatePartitionRequest` wire shape declared in `types/failure.ts`. -/

/-- A minimal JSON value model for the request bodies posted by the API layer. -/
inductive Json where
  | str (s : String)
  | num (n : Int)
  | arr (elems : List Json)
  | obj (fields : List (String × Json))

/-- Field lookup in a JSON object; `none` on non-objects or missing keys. -/
def Json.getField : Json → String → Option Json
  | Json.obj fields, k => fields.lookup k
  | _, _ => none

/-- Whether a JSON value is an array of strings. -/
def Json.isStringArray : Json → Bool
  | Json.arr elems =>
    elems.all (fun e => match e with | Json.str _ => true | _ => false)
  | _ => false

/-- The request body that `createPartitionMutation` (`ControlPanel.tsx`,
lines 109-116) passes to `failuresApi.createPartition`, field for field:
`replica_set_name`, `group_a`, `group_b` and `description` all at the top
level of the object literal. -/
def createPartitionPayload (replicaSetName : String)
    (groupA groupB : List String) : Json :=
  Json.obj
    [("replica_set_name", Json.str replicaSetName),
     ("group_a", Json.arr (groupA.map Json.str)),
     ("group_b", Json.arr (groupB.map Json.str)),
     ("description",
      Json.str ("Partition: [" ++ String.intercalate ", " groupA ++
        "] vs [" ++ String.intercalate ", " groupB ++ "]"))]

/-- Conformance to the declared `CreatePartitionRequest` interface of
`types/failure.ts` (lines 33-36): a `replica_set_name` string together with a
`partition_config` object holding `group_a` and `group_b` string arrays (and
optionally a `description` string). -/
def conformsToCreatePartitionRequest (j : Json) : Bool :=
  (match j.getField "replica_set_name" with
   | some (Json.str _) => true
   | _ => false) &&
  (match j.getField "partition_config" with
   | some pc =>
     (match pc.getField "group_a" with
      | some ga => ga.isStringArray
      | none => false) &&
     (match pc.getField "group_b" with
      | some gb => gb.isStringArray
      | none => false) &&
     (match pc.getField "description" with
      | some (Json.str _) => true
      | some _ => false
      | none => true)
   | none => false)

/-! ## Spec-modelled backend components

The backend services named by the spec (`Replica Group Coordinator`,
`State Broadcaster`, `Failure Injector`; `cluster_manager.py`,
`failure_simulator.py`) are not under `src/` — only their mirrored wire types
and the operator frontend are. The definitions below are therefore modelled
from the specification text and are marked as such. -/

/-- Modelled from the spec: one member's observed state inside a stable
(non-electing) snapshot — the member reports the leader state exactly when it
is the elected leader, healthy non-leaders report as secondaries. Member
input is a `(node_id, healthy)` pair. -/
def mkStableMember (leader : Option String) (d : String × Bool) :
    MemberStatus :=
  let st : String :=
    match leader with
    | some l => if d.1 == l then "PRIMARY"
                else if d.2 then "SECONDARY" else "DOWN"
    | none => if d.2 then "SECONDARY" else "DOWN"
  { node_id := d.1, name := d.1, state := st, state_str := st,
    health := if d.2 then 1 else 0, uptime := 0 }

/-- Modelled from the spec: the State Broadcaster's stable (non-electing)
snapshot construction is not under `src/`; only its mirrored wire type
`ReplicaSetStatus` is. Per §3 and §4.4 the snapshot is rebuilt every poll
cycle from the authoritative source: `primary` carries the elected leader's
id (or null), each member reports its observed state per `mkStableMember`,
and the group health is `ok` exactly when a leader resolves. -/
def mkStableSnapshot (setName : String) (leader : Option String)
    (memberData : List (String × Bool)) : ReplicaSetStatus :=
  { set_name := setName
    primary := leader
    members := memberData.map (mkStableMember leader)
    health := if leader.isSome then "ok" else "down" }

/-- `FailureState.failure_type` values from `types/failure.ts`. -/
inductive FailureKind where
  | node_crash
  | network_partition
  | latency_injection
  | packet_loss
deriving DecidableEq, Repr

/-- An active failure record (the claim-relevant fields of `FailureState`). -/
structure FailureRecord where
  failure_id : Nat
  kind : FailureKind
  affected_nodes : List String
deriving DecidableEq, Repr

/-- The Failure Injector's bookkeeping state: a fresh-id counter, the active
failure list, and the set of compute units currently stopped by a crash. -/
structure InjectorState where
  nextId : Nat
  active : List FailureRecord
  stopped : List String
deriving DecidableEq, Repr

/-- The active crash-type failure targeting a node, if any. -/
def activeCrashFor (s : InjectorState) (nodeId : String) :
    Option FailureRecord :=
  s.active.find? (fun r =>
    r.kind == FailureKind.node_crash && r.affected_nodes.contains nodeId)

/-- A member's observed health under the injector state (`health=true` iff its
compute unit is not stopped). -/
def healthOf (s : InjectorState) (nodeId : String) : Bool :=
  !(s.stopped.contains nodeId)

/-- Modelled from the spec: `crash(node_id)` of the Failure Injector
(`failure_simulator.py`, not under `src/`). Per §4.3 it records a
`FailureState` and delegates to the Lifecycle Driver's `stop`; re-crashing an
already-crashed node returns the existing `failure_id` rather than creating a
duplicate. -/
def crash (s : InjectorState) (nodeId : String) : Nat × InjectorState :=
  match activeCrashFor s nodeId with
  | some r => (r.failure_id, s)
  | none =>
    (s.nextId,
     { nextId := s.nextId + 1
       active := s.active ++
         [{ failure_id := s.nextId, kind := FailureKind.node_crash,
            affected_nodes := [nodeId] }]
       stopped :=
         if s.stopped.contains nodeId then s.stopped else nodeId :: s.stopped })

/-- Modelled from the spec: `restore(node_id)` of the Failure Injector
(`failure_simulator.py`, not under `src/`). Per §4.3 it starts the compute
unit again and clears any crash-type `FailureState` for that node; on a
never-crashed node it is a no-op. -/
def restore (s : InjectorState) (nodeId : String) : InjectorState :=
  match activeCrashFor s nodeId with
  | none => s
  | some _ =>
    { s with
      active := s.active.filter (fun r =>
        !(r.kind == FailureKind.node_crash && r.affected_nodes.contains nodeId))
      stopped := s.stopped.filter (fun n => n != nodeId) }

/-! ## Theorems -/

/-- One toggle preserves disjointness of the two selected groups. -/
theorem selDisjoint_toggle {s : PartitionSel} (h : selDisjoint s)
    (nodeId : String) (side : PGroup) :
    selDisjoint (toggleNodeInPartition s nodeId side) := by
  intro x hxA hxB
  cases side with
  | A =>
    by_cases hc : s.groupA.contains nodeId
    · simp only [toggleNodeInPartition, if_pos hc, List.mem_filter] at hxA hxB
      exact h x hxA.1 hxB
    · simp only [toggleNodeInPartition, if_neg hc, List.mem_append,
        List.mem_singleton, List.mem_filter, bne_iff_ne, ne_eq] at hxA hxB
      rcases hxA with hxA | rfl
      · exact h x hxA hxB.1
      · exact hxB.2 rfl
  | B =>
    by_cases hc : s.groupB.contains nodeId
    · simp only [toggleNodeInPartition, if_pos hc, List.mem_filter] at hxA hxB
      exact h x hxA hxB.1
    · simp only [toggleNodeInPartition, if_neg hc, List.mem_append,
        List.mem_singleton, List.mem_filter, bne_iff_ne, ne_eq] at hxA hxB
      rcases hxB with hxB | rfl
      · exact h x hxA.1 hxB
      · exact hxA.2 rfl

/-- Disjointness is preserved by any toggle sequence. -/
theorem selDisjoint_applyToggles {s : PartitionSel} (h : selDisjoint s)
    (ops : List (String × PGroup)) : selDisjoint (applyToggles s ops) := by
  induction ops generalizing s with
  | nil => exact h
  | cons op rest ih =>
    obtain ⟨n, g⟩ := op
    exact ih (selDisjoint_toggle h n g)

/-- Claim C2: for every sequence of partition-group toggle operations starting
from empty groups, the two partition sets remain disjoint (assigning a node to
one group removes it from the other), and the partition-create request can be
issued (`canCreatePartition`) only when both groups are non-empty. -/
theorem partition_toggle_disjoint_and_gating (ops : List (String × PGroup)) :
    selDisjoint (applyToggles emptySel ops) ∧
    (canCreatePartition (applyToggles emptySel ops) = true →
      (applyToggles emptySel ops).groupA ≠ [] ∧
      (applyToggles emptySel ops).groupB ≠ []) := by
  refine ⟨selDisjoint_applyToggles (fun x hx => by simp [emptySel] at hx) ops, ?_⟩
  intro h
  simp only [canCreatePartition, Bool.and_eq_true, decide_eq_true_eq] at h
  exact ⟨List.length_pos.mp h.1, List.length_pos.mp h.2⟩

/-- Witness for C2 at a concrete toggle sequence. -/
theorem partition_toggle_disjoint_and_gating_witness :
    (applyToggles emptySel [("n1", PGroup.A), ("n2", PGroup.B)]).groupA ≠ [] ∧
    (applyToggles emptySel [("n1", PGroup.A), ("n2", PGroup.B)]).groupB ≠ [] :=
  (partition_toggle_disjoint_and_gating
    [("n1", PGroup.A), ("n2", PGroup.B)]).2 (by decide)

/-- Characterization of `inDifferentPartitions`: truthy exactly when one node
is assigned to side `A` and the other to side `B`. -/
theorem inDifferentPartitions_iff (np : List (String × PGroup)) (i j : String) :
    inDifferentPartitions np i j = true ↔
      ((np.lookup i = some PGroup.A ∧ np.lookup j = some PGroup.B) ∨
       (np.lookup i = some PGroup.B ∧ np.lookup j = some PGroup.A)) := by
  unfold inDifferentPartitions
  cases hi : np.lookup i with
  | none => simp
  | some g1 =>
    cases hj : np.lookup j with
    | none => simp
    | some g2 => cases g1 <;> cases g2 <;> simp

/-- Every connection command emitted by the renderer carries
`isBlocked = inDifferentPartitions`. -/
theorem connection_mem_blocked {nodes : List MemberStatus}
    {np : List (String × PGroup)} {i j : String} {act blk : Bool}
    (h : RenderOp.connection i j act blk ∈ drawClusterTopology nodes np) :
    blk = inDifferentPartitions np i j := by
  unfold drawClusterTopology at h
  split at h
  · simp at h
  · simp only [List.mem_append] at h
    rcases h with (h | h) | h
    · unfold connectionOps at h
      simp only [List.mem_map] at h
      obtain ⟨ab, -, heq⟩ := h
      simp only [RenderOp.connection.injEq] at heq
      obtain ⟨h1, h2, -, h4⟩ := heq
      rw [← h4, h1, h2]
    · exfalso
      unfold partitionOps at h
      split at h
      · simp only [List.mem_append, List.mem_singleton] at h
        rcases h with (h | h) | h
        · split at h <;> simp_all
        · split at h <;> simp_all
        · simp at h
      · simp at h
    · simp at h

/-- Claim C3: for every pair of members rendered in the cluster topology, the
connection between them is drawn as blocked if and only if one member is
assigned to partition group A and the other to partition group B; a pair in
which either member belongs to neither set is never drawn blocked. -/
theorem topology_connection_blocked_iff {nodes : List MemberStatus}
    {np : List (String × PGroup)} {i j : String} {act blk : Bool}
    (h : RenderOp.connection i j act blk ∈ drawClusterTopology nodes np) :
    (blk = true ↔
      ((np.lookup i = some PGroup.A ∧ np.lookup j = some PGroup.B) ∨
       (np.lookup i = some PGroup.B ∧ np.lookup j = some PGroup.A))) ∧
    ((np.lookup i = none ∨ np.lookup j = none) → blk = false) := by
  have hb := connection_mem_blocked h
  subst hb
  refine ⟨inDifferentPartitions_iff np i j, ?_⟩
  intro hnone
  cases hcase : inDifferentPartitions np i j
  · rfl
  · exfalso
    rcases (inDifferentPartitions_iff np i j).mp hcase with ⟨h1, h2⟩ | ⟨h1, h2⟩ <;>
      rcases hnone with hn | hn <;> simp_all

/-- A small concrete member record used by the witnesses. -/
def demoMember (id st : String) (h : Nat) : MemberStatus :=
  { node_id := id, name := id ++ ":27017", state := st, state_str := st,
    health := h, uptime := 0 }

/-- A concrete two-member topology used by the witnesses. -/
def demoNodes : List MemberStatus :=
  [demoMember "n1" "PRIMARY" 1, demoMember "n2" "SECONDARY" 1]

/-- A concrete partition assignment used by the witnesses. -/
def demoNP : List (String × PGroup) := [("n1", PGroup.A), ("n2", PGroup.B)]

/-- Witness for C3 at a concrete blocked pair. -/
theorem topology_connection_blocked_iff_witness :
    (true = true ↔
      ((demoNP.lookup "n1" = some PGroup.A ∧
        demoNP.lookup "n2" = some PGroup.B) ∨
       (demoNP.lookup "n1" = some PGroup.B ∧
        demoNP.lookup "n2" = some PGroup.A))) ∧
    ((demoNP.lookup "n1" = none ∨ demoNP.lookup "n2" = none) → true = false) :=
  @topology_connection_blocked_iff demoNodes demoNP "n1" "n2" false true
    (by decide)

/-- The JS float comparison `count > total / 2` agrees with the exact
integer condition `2 * count > total`. -/
theorem jsGtHalf_iff (count total : Nat) :
    jsGtHalf count total = true ↔ total < 2 * count := by
  unfold jsGtHalf
  rw [decide_eq_true_iff, div_lt_iff₀ (by norm_num : (0:ℚ) < 2)]
  norm_cast
  omega

/-- Two pointwise-incompatible filters select at most the whole list between
them. -/
theorem filter_disjoint_length_le {α : Type} (xs : List α) (p q : α → Bool)
    (hpq : ∀ x, ¬(p x = true ∧ q x = true)) :
    (xs.filter p).length + (xs.filter q).length ≤ xs.length := by
  induction xs with
  | nil => simp
  | cons a rest ih =>
    cases hp : p a <;> cases hq : q a
    · simp [List.filter_cons, hp, hq]; omega
    · simp [List.filter_cons, hp, hq]; omega
    · simp [List.filter_cons, hp, hq]; omega
    · exact absurd ⟨hp, hq⟩ (hpq a)

/-- Inversion for partition-boundary commands: a boundary is emitted only for
side A or side B, its size is the corresponding member count, its majority
flag is the JS half comparison against the total node count, and its label
text comes from `partitionLabelText`. -/
theorem partitionBoundary_mem_inv {nodes : List MemberStatus}
    {np : List (String × PGroup)} {l : String} {k : Nat} {maj : Bool}
    {txt : String}
    (h : RenderOp.partitionBoundary l k maj txt ∈ drawClusterTopology nodes np) :
    ((l = "Group A" ∧
        k = (nodes.filter
          (fun n => np.lookup n.node_id == some PGroup.A)).length) ∨
     (l = "Group B" ∧
        k = (nodes.filter
          (fun n => np.lookup n.node_id == some PGroup.B)).length)) ∧
    maj = jsGtHalf k nodes.length ∧ txt = partitionLabelText l maj := by
  unfold drawClusterTopology at h
  split at h
  · simp at h
  · simp only [List.mem_append] at h
    rcases h with (h | h) | h
    · exfalso
      unfold connectionOps at h
      simp at h
    · unfold partitionOps at h
      split at h
      · simp only [List.mem_append, List.mem_singleton] at h
        rcases h with (h | h) | h
        · split at h
          · rw [List.mem_singleton] at h
            simp only [RenderOp.partitionBoundary.injEq] at h
            obtain ⟨hl, hk, hmaj, htxt⟩ := h
            subst hl hk
            exact ⟨Or.inl ⟨rfl, rfl⟩, hmaj.symm ▸ ⟨rfl, htxt⟩⟩
          · simp at h
        · split at h
          · rw [List.mem_singleton] at h
            simp only [RenderOp.partitionBoundary.injEq] at h
            obtain ⟨hl, hk, hmaj, htxt⟩ := h
            subst hl hk
            exact ⟨Or.inr ⟨rfl, rfl⟩, hmaj.symm ▸ ⟨rfl, htxt⟩⟩
          · simp at h
        · simp at h
      · simp at h
    · simp at h

/-- Claim C5: a partition group is labeled as the majority side that can
accept writes if and only if its member count strictly exceeds half the
rendered group size (`count > N / 2`); at most one of the two groups is ever
labeled as the majority, and a minority side is always labeled read-only. -/
theorem partition_majority_labeling {nodes : List MemberStatus}
    {np : List (String × PGroup)} {l : String} {k : Nat} {maj : Bool}
    {txt : String}
    (h : RenderOp.partitionBoundary l k maj txt ∈ drawClusterTopology nodes np) :
    (maj = true ↔ 2 * k > nodes.length) ∧
    (maj = true → txt = l ++ " (MAJORITY - Can Write)") ∧
    (maj = false → txt = l ++ " (Minority - Read Only)") ∧
    (∀ l2 k2 txt2,
      RenderOp.partitionBoundary l2 k2 true txt2 ∈ drawClusterTopology nodes np →
      l2 ≠ l → maj = false) := by
  obtain ⟨hcase, hmaj, htxt⟩ := partitionBoundary_mem_inv h
  refine ⟨?_, ?_, ?_, ?_⟩
  · rw [hmaj, jsGtHalf_iff]
  · intro hm; rw [htxt, hm]; rfl
  · intro hm; rw [htxt, hm]; rfl
  · intro l2 k2 txt2 h2 hne
    obtain ⟨hcase2, hmaj2, -⟩ := partitionBoundary_mem_inv h2
    by_contra hmt
    have hmt : maj = true := by
      cases maj
      · exact absurd rfl hmt
      · rfl
    have hsum :
        (nodes.filter (fun n => np.lookup n.node_id == some PGroup.A)).length +
        (nodes.filter (fun n => np.lookup n.node_id == some PGroup.B)).length ≤
          nodes.length := by
      refine filter_disjoint_length_le nodes _ _ ?_
      intro x ⟨hA, hB⟩
      simp only [beq_iff_eq] at hA hB
      rw [hA] at hB
      exact absurd hB (by simp)
    have hk : nodes.length < 2 * k := (jsGtHalf_iff k nodes.length).mp
      (hmaj ▸ hmt)
    have hk2 : nodes.length < 2 * k2 := (jsGtHalf_iff k2 nodes.length).mp
      hmaj2.symm
    rcases hcase with ⟨hl, hkA⟩ | ⟨hl, hkB⟩ <;>
      rcases hcase2 with ⟨hl2, hk2A⟩ | ⟨hl2, hk2B⟩
    · exact hne (hl2.trans hl.symm)
    · subst hkA; subst hk2B; omega
    · subst hkB; subst hk2A; omega
    · exact hne (hl2.trans hl.symm)

/-- Witness for C5 at a concrete boundary: side B holds one of two rendered
members, is not a majority, and is labeled read-only. -/
theorem partition_majority_labeling_witness :
    (false = true ↔ 2 * 1 > demoNodes.length) ∧
    (false = true → "Group B" ++ " (MAJORITY - Can Write)" =
      "Group B" ++ " (MAJORITY - Can Write)") ∧
    (false = false → "Group B (Minority - Read Only)" =
      "Group B" ++ " (Minority - Read Only)") ∧
    (∀ l2 k2 txt2,
      RenderOp.partitionBoundary l2 k2 true txt2 ∈
        drawClusterTopology demoNodes demoNP →
      l2 ≠ "Group B" → false = false) := by
  have hA : jsGtHalf 1 2 = false := by norm_num [jsGtHalf]
  have hmem : RenderOp.partitionBoundary "Group B" 1 false
      "Group B (Minority - Read Only)" ∈ partitionOps demoNodes demoNP := by
    simp +decide [partitionOps, demoNodes, demoNP, demoMember,
      List.filter_cons, List.lookup, partitionLabelText, hA]
  have hmem2 : RenderOp.partitionBoundary "Group B" 1 false
      "Group B (Minority - Read Only)" ∈ drawClusterTopology demoNodes demoNP := by
    unfold drawClusterTopology
    rw [if_neg (by decide)]
    simp [List.mem_append, hmem]
  have := @partition_majority_labeling demoNodes demoNP "Group B" 1 false
    "Group B (Minority - Read Only)" hmem2
  exact ⟨this.1, fun hm => rfl, this.2.2.1, this.2.2.2⟩

/-- Claim C8: whenever at least one rendered node has an active
partition-group assignment, the topology rendering includes the WIP warning
text; when no partition is active (the assignment map is empty), the warning
is never drawn. -/
theorem wip_warning_iff {nodes : List MemberStatus}
    {np : List (String × PGroup)} :
    ((∃ n ∈ nodes, np.lookup n.node_id ≠ none) →
      RenderOp.wipWarning ∈ drawClusterTopology nodes np) ∧
    (np = [] → RenderOp.wipWarning ∉ drawClusterTopology nodes np) := by
  constructor
  · rintro ⟨n, hn, hlook⟩
    have hne : nodes ≠ [] := List.ne_nil_of_mem hn
    have hnp : 0 < np.length := by
      cases np with
      | nil => simp [List.lookup] at hlook
      | cons a rest => simp
    have hwip : RenderOp.wipWarning ∈ partitionOps nodes np := by
      unfold partitionOps
      rw [if_pos hnp]
      simp
    unfold drawClusterTopology
    rw [if_neg (by simp only [beq_iff_eq, List.length_eq_zero]; exact hne)]
    simp [List.mem_append, hwip]
  · intro hnp hmem
    subst hnp
    unfold drawClusterTopology at hmem
    split at hmem
    · simp at hmem
    · simp only [List.mem_append] at hmem
      rcases hmem with (hmem | hmem) | hmem
      · unfold connectionOps at hmem
        simp at hmem
      · unfold partitionOps at hmem
        simp at hmem
      · simp at hmem

/-- Witness for C8: the concrete partitioned topology draws the WIP warning. -/
theorem wip_warning_iff_witness :
    RenderOp.wipWarning ∈ drawClusterTopology demoNodes demoNP :=
  (@wip_warning_iff demoNodes demoNP).1
    ⟨demoMember "n1" "PRIMARY" 1, by decide, by decide⟩

/-- A `filterMap` whose function is an if-then-some-else-none is the map of
the filter. -/
theorem filterMap_if_eq_map_filter {α β : Type} (q : α → Bool) (f : α → β) :
    ∀ xs : List α,
      xs.filterMap (fun x => if q x then some (f x) else none) =
        (xs.filter q).map f := by
  intro xs
  induction xs with
  | nil => rfl
  | cons a rest ih =>
    cases hq : q a <;>
      simp [List.filterMap_cons, List.filter_cons, hq, ih]

/-- Claim C7: for every member list and designated primary, the generated
replication flows are empty when the primary is null or unhealthy, and
otherwise contain exactly one flow from the primary to each healthy member
whose state is SECONDARY, excluding arbiters and excluding members assigned
to a different partition group than the primary. -/
theorem replication_flows_spec (members : List MemberStatus)
    (parts : List PartitionInfo) (p : String) (pn : MemberStatus)
    (hfind : members.find? (fun m => m.node_id == p || m.name == p) = some pn) :
    (∀ (ms : List MemberStatus) (ps : List PartitionInfo),
        generateReplicationFlows ms none ps = []) ∧
    (pn.health ≠ 1 → generateReplicationFlows members (some p) parts = []) ∧
    (pn.health = 1 → generateReplicationFlows members (some p) parts =
      (members.filter (fun m =>
          !(m.node_id == p || m.name == p) && m.health == 1 &&
          !(m.state_str.toUpper == "ARBITER") &&
          m.state_str.toUpper == "SECONDARY" &&
          !(inDifferentPartitions (buildNodePartitions parts)
              pn.node_id m.node_id))).map
        (fun m => { fromNode := pn.node_id, toNode := m.node_id,
                    color := "#10b981" })) := by
  refine ⟨fun ms ps => rfl, ?_, ?_⟩
  · intro hh
    have hne : (pn.health != 1) = true := by simpa using hh
    simp only [generateReplicationFlows, hfind, hne, if_true]
  · intro hh
    have hne : (pn.health != 1) = false := by simp [hh]
    simp only [generateReplicationFlows, hfind, hne, Bool.false_eq_true,
      if_false]
    exact filterMap_if_eq_map_filter _ _ members

/-- Witness for C7: the concrete two-member set with a healthy primary yields
the flow list of its filtered secondaries. -/
theorem replication_flows_spec_witness :
    generateReplicationFlows demoNodes (some "n1") [] =
      (demoNodes.filter (fun m =>
          !(m.node_id == "n1" || m.name == "n1") && m.health == 1 &&
          !(m.state_str.toUpper == "ARBITER") &&
          m.state_str.toUpper == "SECONDARY" &&
          !(inDifferentPartitions (buildNodePartitions [])
              (demoMember "n1" "PRIMARY" 1).node_id m.node_id))).map
        (fun m => { fromNode := (demoMember "n1" "PRIMARY" 1).node_id,
                    toNode := m.node_id, color := "#10b981" }) :=
  (replication_flows_spec demoNodes [] "n1" (demoMember "n1" "PRIMARY" 1)
    (by decide)).2.2 rfl

/-- `mapSet` (JS `Map.set`) registers the value under the given key. -/
theorem mapSet_lookup_self {α : Type} (m : List (String × α)) (k : String)
    (v : α) : (mapSet m k v).lookup k = some v := by
  induction m with
  | nil => simp [mapSet, List.lookup]
  | cons a rest ih =>
    obtain ⟨k0, v0⟩ := a
    cases hk : k0 == k
    · have hk2 : (k == k0) = false := by
        simp only [beq_eq_false_iff_ne, ne_eq] at hk ⊢
        exact fun h => hk h.symm
      simp [mapSet, hk, List.lookup, hk2, ih]
    · have hk2 : (k == k0) = true := by
        simp only [beq_iff_eq] at hk ⊢
        exact hk.symm
      simp [mapSet, hk, List.lookup, hk2]

/-- Claim C6: log subscriptions are keyed by node id and handled
independently of the main snapshot feed: an incoming node-logs message never
alters the cluster-state feed and is delivered exactly to the handler
registered for that node id; two subscribers (two hook instances) each
registered for the same node receive the same tailed content; and
subscribing registers the handler under its node id. -/
theorem node_logs_dispatch (cbs cbs2 : List (String × Nat))
    (cs cs2 : Option ClusterState) (nid logs : String) (cb cb2 : Nat)
    (h1 : cbs.lookup nid = some cb) (h2 : cbs2.lookup nid = some cb2) :
    (∀ (cbs0 : List (String × Nat)) (cs0 : Option ClusterState) (n l : String),
        (handleMessage cbs0 cs0 (WsMessage.nodeLogsMsg n l)).1 = cs0) ∧
    (∀ (cbs0 : List (String × Nat)) (cs0 : Option ClusterState) (n l : String),
        (handleMessage cbs0 cs0 (WsMessage.nodeLogsMsg n l)).2 =
          (cbs0.lookup n).map (fun c => (c, l))) ∧
    ((handleMessage cbs cs (WsMessage.nodeLogsMsg nid logs)).2 =
        some (cb, logs) ∧
      (handleMessage cbs2 cs2 (WsMessage.nodeLogsMsg nid logs)).2 =
        some (cb2, logs)) ∧
    (∀ (m : List (String × Nat)) (n : String) (c : Nat),
        (subscribeToNodeLogs m n c).lookup n = some c) := by
  refine ⟨fun cbs0 cs0 n l => rfl, ?_, ?_, ?_⟩
  · intro cbs0 cs0 n l
    simp only [handleMessage]
    cases cbs0.lookup n <;> rfl
  · constructor
    · simp only [handleMessage]
      rw [h1]
    · simp only [handleMessage]
      rw [h2]
  · intro m n c
    exact mapSet_lookup_self m n c

/-- Witness for C6 at two concrete subscriber registries. -/
theorem node_logs_dispatch_witness :
    (handleMessage [("n1", 7)] none (WsMessage.nodeLogsMsg "n1" "line")).2 =
        some (7, "line") ∧
    (handleMessage [("n2", 3), ("n1", 8)] none
        (WsMessage.nodeLogsMsg "n1" "line")).2 = some (8, "line") :=
  (node_logs_dispatch [("n1", 7)] [("n2", 3), ("n1", 8)] none none "n1" "line"
    7 8 (by decide) (by decide)).2.2.1

/-- `wsRun` unfolds one step at a time. -/
theorem wsRun_cons (s : WsRetryState) (e : WsEvent) (rest : List WsEvent) :
    wsRun s (e :: rest) =
      ((wsRun (wsStep s e).1 rest).1,
        (wsStep s e).2 ++ (wsRun (wsStep s e).1 rest).2) := rfl

/-- `countSchedules` distributes over list append. -/
theorem countSchedules_append (l1 l2 : List WsAction) :
    countSchedules (l1 ++ l2) = countSchedules l1 + countSchedules l2 :=
  List.countP_append _ _ _

/-- `wsStep` on a close in a reconnect-eligible state. -/
theorem wsStep_onClose_pos {s : WsRetryState}
    (h : s.shouldReconnect = true ∧
      s.reconnectAttempts < MAX_RECONNECT_ATTEMPTS) :
    wsStep s WsEvent.onClose =
      (⟨s.reconnectAttempts + 1, s.shouldReconnect, true⟩,
        [WsAction.scheduleReconnect RECONNECT_DELAY]) := by
  simp only [wsStep]
  rw [if_pos h]

/-- `wsStep` on a close once reconnecting is disabled or exhausted. -/
theorem wsStep_onClose_neg {s : WsRetryState}
    (h : ¬(s.shouldReconnect = true ∧
      s.reconnectAttempts < MAX_RECONNECT_ATTEMPTS)) :
    wsStep s WsEvent.onClose = (s, []) := by
  simp only [wsStep]
  rw [if_neg h]

/-- `wsStep` on a timer firing while a timer is pending. -/
theorem wsStep_fire_pos {s : WsRetryState} (h : s.pendingTimer = true) :
    wsStep s WsEvent.timerFire =
      (⟨s.reconnectAttempts, s.shouldReconnect, false⟩,
        [WsAction.connectAttempt]) := by
  simp only [wsStep]
  rw [if_pos h]

/-- `wsStep` on a timer event with no pending timer. -/
theorem wsStep_fire_neg {s : WsRetryState} (h : ¬(s.pendingTimer = true)) :
    wsStep s WsEvent.timerFire = (s, []) := by
  simp only [wsStep]
  rw [if_neg h]

/-- Without a successful open, the schedules emitted over any event sequence
never push the attempt counter past the maximum. -/
theorem wsRun_schedule_bound (evs : List WsEvent) :
    ∀ s : WsRetryState, WsEvent.onOpen ∉ evs →
      s.reconnectAttempts ≤ MAX_RECONNECT_ATTEMPTS →
      countSchedules (wsRun s evs).2 + s.reconnectAttempts ≤
        MAX_RECONNECT_ATTEMPTS := by
  induction evs with
  | nil => intro s _ hs; simpa [wsRun, countSchedules] using hs
  | cons e rest ih =>
    intro s hopen hs
    have hopen2 : WsEvent.onOpen ∉ rest :=
      fun h => hopen (List.mem_cons_of_mem _ h)
    have hne : e ≠ WsEvent.onOpen :=
      fun h => hopen (h ▸ List.mem_cons_self _ _)
    rw [wsRun_cons]
    cases e with
    | onOpen => exact absurd rfl hne
    | onClose =>
      by_cases hc : s.shouldReconnect = true ∧
          s.reconnectAttempts < MAX_RECONNECT_ATTEMPTS
      · rw [wsStep_onClose_pos hc]
        dsimp only
        have hstep := ih ⟨s.reconnectAttempts + 1, s.shouldReconnect, true⟩
          hopen2 hc.2
        dsimp only at hstep
        rw [countSchedules_append]
        have h1 : countSchedules [WsAction.scheduleReconnect RECONNECT_DELAY]
            = 1 := rfl
        rw [h1]
        omega
      · rw [wsStep_onClose_neg hc]
        dsimp only
        have hstep := ih s hopen2 hs
        simpa [countSchedules] using hstep
    | timerFire =>
      by_cases hc : s.pendingTimer = true
      · rw [wsStep_fire_pos hc]
        dsimp only
        have hstep := ih ⟨s.reconnectAttempts, s.shouldReconnect, false⟩
          hopen2 hs
        dsimp only at hstep
        rw [countSchedules_append]
        have h1 : countSchedules [WsAction.connectAttempt] = 0 := rfl
        rw [h1]
        omega
      · rw [wsStep_fire_neg hc]
        dsimp only
        have hstep := ih s hopen2 hs
        simpa [countSchedules] using hstep
    | cleanup =>
      have hstep := ih ⟨s.reconnectAttempts, false, false⟩ hopen2 hs
      have h0 : wsStep s WsEvent.cleanup =
          (⟨s.reconnectAttempts, false, false⟩, []) := rfl
      rw [h0]
      dsimp only
      simpa [countSchedules] using hstep

/-- After cleanup has cleared `shouldReconnect` and the pending timer, no
event sequence emits any action. -/
theorem wsRun_dead (evs : List WsEvent) :
    ∀ s : WsRetryState, s.shouldReconnect = false → s.pendingTimer = false →
      (wsRun s evs).2 = [] ∧ (wsRun s evs).1.shouldReconnect = false ∧
        (wsRun s evs).1.pendingTimer = false := by
  induction evs with
  | nil => intro s h1 h2; exact ⟨rfl, h1, h2⟩
  | cons e rest ih =>
    intro s h1 h2
    cases e with
    | onOpen =>
      have := ih { s with reconnectAttempts := 0 } h1 h2
      simpa [wsRun, wsStep] using this
    | onClose =>
      have hc : ¬(s.shouldReconnect = true ∧
          s.reconnectAttempts < MAX_RECONNECT_ATTEMPTS) := by
        rintro ⟨h, -⟩; rw [h1] at h; exact Bool.false_ne_true h
      have := ih s h1 h2
      simpa [wsRun, wsStep, if_neg hc] using this
    | timerFire =>
      have hc : ¬(s.pendingTimer = true) := by
        rw [h2]; exact Bool.false_ne_true
      have := ih s h1 h2
      simpa [wsRun, wsStep, if_neg hc] using this
    | cleanup =>
      have := ih { s with shouldReconnect := false, pendingTimer := false }
        rfl rfl
      simpa [wsRun, wsStep] using this

/-- Claim C9: after an unexpected close the hook schedules exactly one
reconnect attempt at the fixed 1000 ms delay; without a successful open at
most 15 reconnects are ever scheduled; every successful open resets the
attempt counter to zero; and after cleanup has run, no event can trigger a
schedule or a connect attempt again. -/
theorem websocket_reconnect_policy (s : WsRetryState) (evs : List WsEvent)
    (hopen : WsEvent.onOpen ∉ evs) (hs : s.shouldReconnect = true)
    (hlt : s.reconnectAttempts < MAX_RECONNECT_ATTEMPTS) :
    RECONNECT_DELAY = 1000 ∧
    MAX_RECONNECT_ATTEMPTS = 15 ∧
    (wsStep s WsEvent.onClose).2 = [WsAction.scheduleReconnect 1000] ∧
    (∀ t : WsRetryState, (wsStep t WsEvent.onOpen).1.reconnectAttempts = 0) ∧
    countSchedules (wsRun s evs).2 + s.reconnectAttempts ≤ 15 ∧
    (∀ (t : WsRetryState) (evs2 : List WsEvent),
        (wsRun (wsStep t WsEvent.cleanup).1 evs2).2 = []) := by
  refine ⟨rfl, rfl, ?_, fun t => rfl, ?_, ?_⟩
  · rw [wsStep_onClose_pos ⟨hs, hlt⟩]
    rfl
  · exact wsRun_schedule_bound evs s hopen (Nat.le_of_lt hlt)
  · intro t evs2
    exact (wsRun_dead evs2 (wsStep t WsEvent.cleanup).1 rfl rfl).1

/-- Witness for C9 at a fresh retry state and a close-then-fire trace. -/
theorem websocket_reconnect_policy_witness :
    (wsStep ⟨0, true, false⟩ WsEvent.onClose).2 =
        [WsAction.scheduleReconnect 1000] ∧
    countSchedules
        (wsRun ⟨0, true, false⟩ [WsEvent.onClose, WsEvent.timerFire]).2 +
      (0 : Nat) ≤ 15 :=
  have h := websocket_reconnect_policy ⟨0, true, false⟩
    [WsEvent.onClose, WsEvent.timerFire] (by decide) rfl (by decide)
  ⟨h.2.2.1, h.2.2.2.2.1⟩

/-- A stable member's leader report is exactly the id test against the
elected leader. -/
theorem mkStableMember_primary_iff (l : String) (d : String × Bool) :
    ((mkStableMember (some l) d).state_str == "PRIMARY") = (d.1 == l) := by
  cases hd : d.1 == l
  · cases hb : d.2 <;> simp [mkStableMember, hd, hb]
  · simp [mkStableMember, hd]

/-- With no elected leader no stable member reports the leader state. -/
theorem mkStableMember_none_not_primary (d : String × Bool) :
    ((mkStableMember none d).state_str == "PRIMARY") = false := by
  cases hb : d.2 <;> simp [mkStableMember, hb]

/-- With distinct member ids, at most one stable member reports the leader
state. -/
theorem countP_stableMembers_le_one (l : String) :
    ∀ md : List (String × Bool), (md.map Prod.fst).Nodup →
      (md.map (mkStableMember (some l))).countP
        (fun m => m.state_str == "PRIMARY") ≤ 1 := by
  intro md
  induction md with
  | nil => intro _; simp
  | cons d rest ih =>
    intro hnodup
    rw [List.map_cons] at hnodup
    rw [List.map_cons, List.countP_cons]
    cases hd : d.1 == l
    · rw [mkStableMember_primary_iff, hd]
      simpa using ih hnodup.of_cons
    · have hl : d.1 = l := by simpa using hd
      have hrest0 : (rest.map (mkStableMember (some l))).countP
          (fun m => m.state_str == "PRIMARY") = 0 := by
        refine List.countP_eq_zero.mpr ?_
        intro m hm
        obtain ⟨d2, hd2, rfl⟩ := List.mem_map.mp hm
        rw [mkStableMember_primary_iff]
        intro hcon
        have h2 : d2.1 = l := by simpa using hcon
        have : d.1 ∈ rest.map Prod.fst :=
          List.mem_map.mpr ⟨d2, hd2, by rw [h2, hl]⟩
        exact (List.nodup_cons.mp hnodup).1 this
      rw [mkStableMember_primary_iff, hd, hrest0]
      simp

/-- Claim C1: in every stable (non-electing) snapshot built for observers the
leader reference is a single node id or null, and, with distinct member ids,
at most one member reports the leader state. -/
theorem stable_snapshot_single_leader (setName : String)
    (leader : Option String) (memberData : List (String × Bool))
    (hnodup : (memberData.map Prod.fst).Nodup) :
    (mkStableSnapshot setName leader memberData).primary = leader ∧
    (mkStableSnapshot setName leader memberData).members.countP
      (fun m => m.state_str == "PRIMARY") ≤ 1 := by
  refine ⟨rfl, ?_⟩
  show (memberData.map (mkStableMember leader)).countP _ ≤ 1
  cases leader with
  | none =>
    have h0 : (memberData.map (mkStableMember none)).countP
        (fun m => m.state_str == "PRIMARY") = 0 := by
      refine List.countP_eq_zero.mpr ?_
      intro m hm
      obtain ⟨d, -, rfl⟩ := List.mem_map.mp hm
      simp [mkStableMember_none_not_primary]
    rw [h0]
    exact Nat.zero_le 1
  | some l => exact countP_stableMembers_le_one l memberData hnodup

/-- Witness for C1 at a concrete two-member stable snapshot. -/
theorem stable_snapshot_single_leader_witness :
    (mkStableSnapshot "rs0" (some "n1") [("n1", true), ("n2", true)]).primary =
        some "n1" ∧
    (mkStableSnapshot "rs0" (some "n1")
        [("n1", true), ("n2", true)]).members.countP
      (fun m => m.state_str == "PRIMARY") ≤ 1 :=
  stable_snapshot_single_leader "rs0" (some "n1") [("n1", true), ("n2", true)]
    (by decide)

/-- A filter removing everything matching a predicate leaves nothing for
`find?` to find. -/
theorem find?_filter_not {α : Type} (p : α → Bool) (l : List α) :
    (l.filter (fun r => !(p r))).find? p = none := by
  induction l with
  | nil => rfl
  | cons a rest ih =>
    cases hp : p a
    · simp [List.filter_cons, hp, List.find?, ih]
    · simp [List.filter_cons, hp, ih]

/-- Claim C4: crashing a node is idempotent — re-crashing an already-crashed
node returns the existing failure id with no second active crash-type
failure; crash followed by restore returns the member to health true with no
remaining crash failure; and restore on a never-crashed node is a no-op. -/
theorem crash_restore_idempotent (s : InjectorState) (n : String)
    (h0 : activeCrashFor s n = none) :
    (crash (crash s n).2 n = crash s n) ∧
    ((crash s n).2.active.countP (fun r =>
        r.kind == FailureKind.node_crash &&
          r.affected_nodes.contains n) = 1) ∧
    (healthOf (restore (crash s n).2 n) n = true) ∧
    (activeCrashFor (restore (crash s n).2 n) n = none) ∧
    (restore s n = s) := by
  have hcrash : crash s n =
      (s.nextId,
        { nextId := s.nextId + 1,
          active := s.active ++
            [{ failure_id := s.nextId, kind := FailureKind.node_crash,
               affected_nodes := [n] }],
          stopped := if s.stopped.contains n then s.stopped
                     else n :: s.stopped }) := by
    simp only [crash, h0]
  have hfind1 : activeCrashFor (crash s n).2 n =
      some { failure_id := s.nextId, kind := FailureKind.node_crash,
             affected_nodes := [n] } := by
    rw [hcrash]
    unfold activeCrashFor at h0 ⊢
    dsimp only
    rw [List.find?_append, h0]
    simp
  have hfound : ∀ (t : InjectorState) (r : FailureRecord),
      activeCrashFor t n = some r → crash t n = (r.failure_id, t) := by
    intro t r h
    simp only [crash, h]
  refine ⟨?_, ?_, ?_, ?_, ?_⟩
  · have hc2 := hfound (crash s n).2 _ hfind1
    rw [hc2, hcrash]
  · rw [hcrash]
    dsimp only
    rw [List.countP_append]
    have hz : s.active.countP (fun r =>
        r.kind == FailureKind.node_crash &&
          r.affected_nodes.contains n) = 0 := by
      refine List.countP_eq_zero.mpr ?_
      unfold activeCrashFor at h0
      exact List.find?_eq_none.mp h0
    rw [hz]
    simp
  · unfold restore
    rw [hfind1]
    dsimp only
    unfold healthOf
    simp
  · unfold restore
    rw [hfind1]
    unfold activeCrashFor
    dsimp only
    exact find?_filter_not _ _
  · unfold restore
    rw [h0]

/-- Witness for C4 starting from a fresh injector state. -/
theorem crash_restore_idempotent_witness :
    (crash (crash ⟨0, [], []⟩ "node1").2 "node1" =
        crash ⟨0, [], []⟩ "node1") ∧
    ((crash (⟨0, [], []⟩ : InjectorState) "node1").2.active.countP (fun r =>
        r.kind == FailureKind.node_crash &&
          r.affected_nodes.contains "node1") = 1) ∧
    (healthOf (restore (crash ⟨0, [], []⟩ "node1").2 "node1") "node1" =
        true) ∧
    (activeCrashFor (restore (crash ⟨0, [], []⟩ "node1").2 "node1") "node1" =
        none) ∧
    (restore (⟨0, [], []⟩ : InjectorState) "node1" = ⟨0, [], []⟩) :=
  crash_restore_idempotent ⟨0, [], []⟩ "node1" (by decide)

/-- Claim C10 (refuted by the code): the request body built by
`createPartitionMutation` does not conform to the declared
`CreatePartitionRequest` wire shape — `group_a`, `group_b` and `description`
are sent at the top level of the object instead of nested inside a
`partition_config` object. -/
theorem createPartitionPayload_not_conformant :
    conformsToCreatePartitionRequest
      (createPartitionPayload "rs0" ["n1"] ["n2"]) = false := by decide

end NoSqlSim
